import Mathlib

/-!
Shallow embedding of `src/unicode.c` (uniconv): codepoint validation, the
UTF-8/16/32 codepoint decoders and encoders, the six buffer transcoders
(`UTFCONV` macro instances), the six length estimators, the three strict
validators and the three strlen functions (`STRLEN` macro instances).

Modelling conventions:
* code units and codepoints are `Nat`; machine truncation is written
  explicitly (`% 0x100`, `% 0x10000`, `% 0x100000000`) where the C types do it;
* a source buffer is a `List Nat` read through `List.getD _ _ 0`: a read past
  the end of the list models the zero memory that follows a zero-terminated
  string (the header requires buffers to be zero-terminated);
* destination memory is a map `Nat → Option Nat`, so a cell that was never
  written stays `none` and writes are observable;
* loops are expressed with an explicit fuel so that every definition is
  structural and computable; the wrappers pass a fuel that is large enough
  for every execution the C code performs (each loop advances its read
  position by at least one unit per iteration and stops on a zero read,
  so `length + 2` iterations always suffice).
-/

/-! ### Destination memory model -/

def Mem : Type := Nat → Option Nat

def mem0 : Mem := fun _ => none

def mwrite (m : Mem) (i v : Nat) : Mem := fun j => if j = i then some v else m j

/-- Contents of the first `n` destination cells; an unwritten cell reads 0. -/
def memOut (m : Mem) (n : Nat) : List Nat := (List.range n).map fun i => (m i).getD 0

/-- Model of `bzero(dest, n * sizeof(unit))` at base cell `i`:
cells `i, i+1, …, i+n-1` are set to 0. -/
def mbzero (m : Mem) (i : Nat) : Nat → Mem
  | 0 => m
  | n+1 => mwrite (mbzero m i n) (i + n) 0

/-! ### Byte swap routines and helpful constants (unicode.c lines 24-104) -/

/-- `#define __byte_swap_16(i)`: bind to a `uint16_t` (truncate), swap bytes. -/
def __byte_swap_16 (i : Nat) : Nat :=
  let x := i % 0x10000
  ((x >>> 8) &&& 0x00FF) ||| ((x <<< 8) &&& 0xFF00)

/-- `#define __byte_swap_32(i)`: `__builtin_bswap32` on a `uint32_t`. -/
def __byte_swap_32 (i : Nat) : Nat :=
  let x := i % 0x100000000
  ((x >>> 24) &&& 0xFF) ||| (((x >>> 16) &&& 0xFF) <<< 8) |||
    (((x >>> 8) &&& 0xFF) <<< 16) ||| ((x &&& 0xFF) <<< 24)

def SURROGATE_HIGH_START : Nat := 0xD800
def SURROGATE_HIGH_END : Nat := 0xDBFF
def SURROGATE_LOW_START : Nat := 0xDC00
def SURROGATE_LOW_END : Nat := 0xDFFF
def UTF16_ONE_CHAR_LIMIT : Nat := 0x10000
def UTF8_ONE_CHAR_LIMIT : Nat := 0x80
def UTF8_TWO_CHAR_LIMIT : Nat := 0x800
def UTF8_THREE_CHAR_LIMIT : Nat := 0x10000
def UNICODE_FINAL_POINT : Nat := 0x10FFFF
def UTF8_SEQ_MAX_CHARS : Nat := 4
def UNICODE_REPL_CHAR : Nat := 0xFFFD

/-- The 256-entry table `UTF8_TRAILING_COUNT`, written by ranges of the index:
entries `0x00–0xBF` are 0, `0xC0–0xDF` are 1, `0xE0–0xEF` are 2,
`0xF0–0xF7` are 3, `0xF8–0xFB` are 4 and `0xFC–0xFF` are 5
(the C table is only ever indexed by a `uint8_t`). -/
def UTF8_TRAILING_COUNT (b : Nat) : Nat :=
  if b < 0xC0 then 0
  else if b < 0xE0 then 1
  else if b < 0xF0 then 2
  else if b < 0xF8 then 3
  else if b < 0xFC then 4
  else 5

/-- `UTF8_ENCODING_OVERFLOW`, indexed by the byte count of a sequence. -/
def UTF8_ENCODING_OVERFLOW (n : Nat) : Nat :=
  match n with
  | 2 => (0xC0 <<< 6) ||| (0x80 <<< 0)
  | 3 => (0xE0 <<< 12) ||| (0x80 <<< 6) ||| (0x80 <<< 0)
  | 4 => (0xF0 <<< 18) ||| (0x80 <<< 12) ||| (0x80 <<< 6) ||| (0x80 <<< 0)
  | _ => 0

/-- `UTF8_INITIAL_MASK`, indexed by the byte count of a sequence. -/
def UTF8_INITIAL_MASK (n : Nat) : Nat :=
  match n with
  | 2 => 0b11000000
  | 3 => 0b11100000
  | 4 => 0b11110000
  | _ => 0b00000000

/-! ### `__codepoint_is_valid` (lines 147-163) -/

def __codepoint_is_valid (codepoint : Nat) : Nat :=
  if SURROGATE_HIGH_START ≤ codepoint ∧ codepoint ≤ SURROGATE_HIGH_END then 2
  else if SURROGATE_LOW_START ≤ codepoint ∧ codepoint ≤ SURROGATE_LOW_END then 2
  else if codepoint > UNICODE_FINAL_POINT then 3
  else 0

/-! ### Conversion helpers (lines 169-216) -/

def __utf8_chars_for_codepoint (codepoint : Nat) : Nat :=
  if codepoint < UTF8_ONE_CHAR_LIMIT then 1
  else if codepoint < UTF8_TWO_CHAR_LIMIT then 2
  else if codepoint < UTF8_THREE_CHAR_LIMIT then 3
  else 4

/-- `__utf8_decode(src + s, cnt)`: sum the `cnt` bytes at offset `s` through the
cascading switch, then subtract the per-length metadata.  `codepoint` is a
`unipoint_t` (`uint32_t`), so the subtraction wraps modulo `2^32` (the call
sites only pass `cnt` between 1 and 4). -/
def __utf8_decode (src : List Nat) (s : Nat) (cnt : Nat) : Nat :=
  let codepoint :=
    match cnt with
    | 4 => ((((((src.getD s 0) <<< 6) + src.getD (s+1) 0) <<< 6) +
              src.getD (s+2) 0) <<< 6) + src.getD (s+3) 0
    | 3 => ((((src.getD s 0) <<< 6) + src.getD (s+1) 0) <<< 6) + src.getD (s+2) 0
    | 2 => ((src.getD s 0) <<< 6) + src.getD (s+1) 0
    | 1 => src.getD s 0
    | _ => 0
  (codepoint + (0x100000000 - UTF8_ENCODING_OVERFLOW cnt)) % 0x100000000

def __utf16_decode (leading_char trailing_char : Nat) : Nat :=
  let leading := (leading_char &&& 0x3FF) <<< 10
  let trailing := (trailing_char &&& 0x3FF) <<< 0
  (leading ||| trailing) + UTF16_ONE_CHAR_LIMIT

/-! ### Codepoint encoders (lines 218-309)

Each encoder takes the destination memory `m`, the base cell `di`
(the C `dest` pointer) and the remaining capacity `dest_size`, and returns
the updated memory together with the number of units reported consumed. -/

/-- `__utf8_from_codepoint` (the trailing `bool` is anonymous and unused in C). -/
def __utf8_from_codepoint (codepoint : Nat) (m : Mem) (di dest_size : Nat)
    (_ : Bool) : Mem × Nat :=
  if codepoint < UTF8_ONE_CHAR_LIMIT then
    (mwrite m di (codepoint % 0x100), 1)
  else
    let char_count := __utf8_chars_for_codepoint codepoint
    if char_count > dest_size then
      (mbzero m di dest_size, 0)
    else
      -- cascading switch: trailing bytes written high-index first, then dest[0]
      match char_count with
      | 4 =>
        let m := mwrite m (di+3) (((codepoint ||| 0b10000000) &&& 0b10111111) % 0x100)
        let codepoint := codepoint >>> 6
        let m := mwrite m (di+2) (((codepoint ||| 0b10000000) &&& 0b10111111) % 0x100)
        let codepoint := codepoint >>> 6
        let m := mwrite m (di+1) (((codepoint ||| 0b10000000) &&& 0b10111111) % 0x100)
        let codepoint := codepoint >>> 6
        (mwrite m di ((codepoint ||| UTF8_INITIAL_MASK 4) % 0x100), 4)
      | 3 =>
        let m := mwrite m (di+2) (((codepoint ||| 0b10000000) &&& 0b10111111) % 0x100)
        let codepoint := codepoint >>> 6
        let m := mwrite m (di+1) (((codepoint ||| 0b10000000) &&& 0b10111111) % 0x100)
        let codepoint := codepoint >>> 6
        (mwrite m di ((codepoint ||| UTF8_INITIAL_MASK 3) % 0x100), 3)
      | 2 =>
        let m := mwrite m (di+1) (((codepoint ||| 0b10000000) &&& 0b10111111) % 0x100)
        let codepoint := codepoint >>> 6
        (mwrite m di ((codepoint ||| UTF8_INITIAL_MASK 2) % 0x100), 2)
      | _ => (m, char_count)

/-- `__utf16_from_codepoint`. -/
def __utf16_from_codepoint (codepoint : Nat) (m : Mem) (di dest_size : Nat)
    (swap : Bool) : Mem × Nat :=
  if codepoint < UTF16_ONE_CHAR_LIMIT then
    (mwrite m di ((if swap then __byte_swap_16 codepoint else codepoint) % 0x10000), 1)
  else
    if dest_size ≥ 2 then
      let codepoint := codepoint - UTF16_ONE_CHAR_LIMIT
      let d0 := ((codepoint >>> 10) &&& 0x3FF) ||| SURROGATE_HIGH_START
      let d1 := ((codepoint >>> 0) &&& 0x3FF) ||| SURROGATE_LOW_START
      let d0 := if swap then __byte_swap_16 d0 else d0
      let d1 := if swap then __byte_swap_16 d1 else d1
      (mwrite (mwrite m di (d0 % 0x10000)) (di+1) (d1 % 0x10000), 2)
    else
      -- buffer out of space: encode as a NULL char, report 1 unit
      (mwrite m di 0, 1)

/-- `__utf32_from_codepoint`. -/
def __utf32_from_codepoint (codepoint : Nat) (m : Mem) (di dest_size : Nat)
    (swap : Bool) : Mem × Nat :=
  (mwrite m di ((if swap then __byte_swap_32 codepoint else codepoint) % 0x100000000), 1)

/-! ### Codepoint decoders (lines 311-440)

Each decoder reads from `src` at base index `si` with `src_size` units
remaining and returns `(codepoint, consumed)`. -/

/-- `__codepoint_from_utf8` (the trailing `bool` is anonymous and unused in C). -/
def __codepoint_from_utf8 (src : List Nat) (si src_size : Nat) (_ : Bool) :
    Nat × Nat :=
  let leading_char := src.getD si 0
  let char_count := UTF8_TRAILING_COUNT leading_char + 1
  if src_size < char_count then
    (UNICODE_REPL_CHAR, src_size)
  else if char_count > UTF8_SEQ_MAX_CHARS then
    (UNICODE_REPL_CHAR, char_count)
  else
    let codepoint := __utf8_decode src si char_count
    if __codepoint_is_valid codepoint ≠ 0 then (UNICODE_REPL_CHAR, char_count)
    else if __utf8_chars_for_codepoint codepoint ≠ char_count then
      (UNICODE_REPL_CHAR, char_count)
    else (codepoint, char_count)

/-- `__codepoint_from_utf16`.  Note the source's comparison on the trailing
unit: `trailing_char <= SURROGATE_LOW_START || SURROGATE_LOW_END <= trailing_char`
rejects the boundary values 0xDC00 and 0xDFFF. -/
def __codepoint_from_utf16 (src : List Nat) (si src_size : Nat) (swap : Bool) :
    Nat × Nat :=
  let leading_char := if swap then __byte_swap_16 (src.getD si 0) else src.getD si 0
  if SURROGATE_HIGH_START ≤ leading_char ∧ leading_char ≤ SURROGATE_HIGH_END then
    if src_size < 2 then (UNICODE_REPL_CHAR, 1)
    else
      let trailing_char :=
        if swap then __byte_swap_16 (src.getD (si+1) 0) else src.getD (si+1) 0
      if trailing_char ≤ SURROGATE_LOW_START ∨ SURROGATE_LOW_END ≤ trailing_char then
        (UNICODE_REPL_CHAR, 1)
      else
        let codepoint := __utf16_decode leading_char trailing_char
        if __codepoint_is_valid codepoint ≠ 0 then (UNICODE_REPL_CHAR, 2)
        else (codepoint, 2)
  else if SURROGATE_LOW_START ≤ leading_char ∧ leading_char ≤ SURROGATE_LOW_END then
    (UNICODE_REPL_CHAR, 1)
  else
    (leading_char, 1)

/-- `__codepoint_from_utf32`. -/
def __codepoint_from_utf32 (src : List Nat) (si src_size : Nat) (swap : Bool) :
    Nat × Nat :=
  let codepoint := if swap then __byte_swap_32 (src.getD si 0) else src.getD si 0
  if __codepoint_is_valid codepoint ≠ 0 then (UNICODE_REPL_CHAR, 1)
  else (codepoint, 1)

/-! ### `UTFCONV` — the six transcoders (lines 446-504)

The C macro is one loop parameterized by the decoder and the encoder; it is
modelled once, generically, with a fuel.  The decoders all report at least one
unit consumed whenever at least one unit remains, so `src_size + 1` fuel is
always sufficient; the fuel-exhausted branch returns the current state exactly
like the loop-exit branch. -/

structure ConvResult where
  /-- destination memory after the call -/
  buf : Mem
  /-- `*dest_size` on return: destination units produced -/
  produced : Nat
  /-- the return value: source units consumed -/
  consumed : Nat

def utfconv_loop (dec : List Nat → Nat → Nat → Bool → Nat × Nat)
    (enc : Nat → Mem → Nat → Nat → Bool → Mem × Nat)
    (src : List Nat) (swap : Bool) (dest_cap src_size : Nat) :
    Nat → Mem → Nat → Nat → ConvResult
  | 0, m, di, si => ⟨m, di, si⟩
  | fuel+1, m, di, si =>
    if di < dest_cap ∧ si < src_size then
      -- read out the next codepoint from the src buffer
      let r := dec src si (src_size - si) swap
      -- write out the UTF-Y version of the read codepoint
      let e := enc r.1 m di (dest_cap - di) swap
      -- the '0' codepoint is NULL and represents the end of a string:
      -- break before incrementing either pointer
      if r.1 = 0 then ⟨e.1, di, si⟩
      else utfconv_loop dec enc src swap dest_cap src_size fuel e.1 (di + e.2) (si + r.2)
    else ⟨m, di, si⟩

def utfconv (dec : List Nat → Nat → Nat → Bool → Nat × Nat)
    (enc : Nat → Mem → Nat → Nat → Bool → Mem × Nat)
    (dest : Mem) (dest_size : Nat) (src : List Nat) (src_size : Nat)
    (swap : Bool) : ConvResult :=
  utfconv_loop dec enc src swap dest_size src_size (src_size + 1) dest 0 0

def enc_utf8_to_utf16 (dest : Mem) (dest_size : Nat) (src : List Nat)
    (src_size : Nat) (swap : Bool) : ConvResult :=
  utfconv __codepoint_from_utf8 __utf16_from_codepoint dest dest_size src src_size swap

def enc_utf8_to_utf32 (dest : Mem) (dest_size : Nat) (src : List Nat)
    (src_size : Nat) (swap : Bool) : ConvResult :=
  utfconv __codepoint_from_utf8 __utf32_from_codepoint dest dest_size src src_size swap

def enc_utf16_to_utf8 (dest : Mem) (dest_size : Nat) (src : List Nat)
    (src_size : Nat) (swap : Bool) : ConvResult :=
  utfconv __codepoint_from_utf16 __utf8_from_codepoint dest dest_size src src_size swap

def enc_utf16_to_utf32 (dest : Mem) (dest_size : Nat) (src : List Nat)
    (src_size : Nat) (swap : Bool) : ConvResult :=
  utfconv __codepoint_from_utf16 __utf32_from_codepoint dest dest_size src src_size swap

def enc_utf32_to_utf16 (dest : Mem) (dest_size : Nat) (src : List Nat)
    (src_size : Nat) (swap : Bool) : ConvResult :=
  utfconv __codepoint_from_utf32 __utf16_from_codepoint dest dest_size src src_size swap

def enc_utf32_to_utf8 (dest : Mem) (dest_size : Nat) (src : List Nat)
    (src_size : Nat) (swap : Bool) : ConvResult :=
  utfconv __codepoint_from_utf32 __utf8_from_codepoint dest dest_size src src_size swap

/-! ### Buffer sizing functions (lines 510-649)

Each C loop has the form `for (c = (*str); c; c = (*str++))` with the body
skipping trailing units via `str += …` or `str++`.  The loop state is the
pair `(c, s)` where `c` is the unit fetched by the previous init/update
expression and `s` is the current value of the `str` pointer (an index).
Note the loop init reads `(*str)` without advancing `str`. -/

def utf8_in_utf16_len_loop (str : List Nat) : Nat → Nat → Nat → Nat
  | 0, _, _ => 0
  | fuel+1, c, s =>
    if c = 0 then 0
    else
      let trailing_chars := UTF8_TRAILING_COUNT c
      (if trailing_chars = 3 then 2 else 1) +
        utf8_in_utf16_len_loop str fuel (str.getD (s + trailing_chars) 0)
          (s + trailing_chars + 1)

def utf8_in_utf16_len (str : List Nat) (_ : Bool) : Nat :=
  utf8_in_utf16_len_loop str (str.length + 2) (str.getD 0 0) 0

def utf8_in_utf32_len_loop (str : List Nat) : Nat → Nat → Nat → Nat
  | 0, _, _ => 0
  | fuel+1, c, s =>
    if c = 0 then 0
    else
      let trailing_chars := UTF8_TRAILING_COUNT c
      1 + utf8_in_utf32_len_loop str fuel (str.getD (s + trailing_chars) 0)
            (s + trailing_chars + 1)

def utf8_in_utf32_len (str : List Nat) (_ : Bool) : Nat :=
  utf8_in_utf32_len_loop str (str.length + 2) (str.getD 0 0) 0

def utf16_in_utf8_len_loop (str : List Nat) (swap : Bool) : Nat → Nat → Nat → Nat
  | 0, _, _ => 0
  | fuel+1, c, s =>
    if c = 0 then 0
    else
      let c := if swap then __byte_swap_16 c else c
      if SURROGATE_HIGH_START ≤ c ∧ c ≤ SURROGATE_HIGH_END then
        -- length += 4, skip the succeeding low surrogate (str++), then update
        4 + utf16_in_utf8_len_loop str swap fuel (str.getD (s+1) 0) (s+2)
      else
        __utf8_chars_for_codepoint c +
          utf16_in_utf8_len_loop str swap fuel (str.getD s 0) (s+1)

def utf16_in_utf8_len (str : List Nat) (swap : Bool) : Nat :=
  utf16_in_utf8_len_loop str swap (str.length + 2) (str.getD 0 0) 0

def utf16_in_utf32_len_loop (str : List Nat) (swap : Bool) : Nat → Nat → Nat → Nat
  | 0, _, _ => 0
  | fuel+1, c, s =>
    if c = 0 then 0
    else
      let c := if swap then __byte_swap_16 c else c
      if SURROGATE_HIGH_START ≤ c ∧ c ≤ SURROGATE_HIGH_END then
        1 + utf16_in_utf32_len_loop str swap fuel (str.getD (s+1) 0) (s+2)
      else
        1 + utf16_in_utf32_len_loop str swap fuel (str.getD s 0) (s+1)

def utf16_in_utf32_len (str : List Nat) (swap : Bool) : Nat :=
  utf16_in_utf32_len_loop str swap (str.length + 2) (str.getD 0 0) 0

def utf32_in_utf8_len_loop (str : List Nat) (swap : Bool) : Nat → Nat → Nat → Nat
  | 0, _, _ => 0
  | fuel+1, c, s =>
    if c = 0 then 0
    else
      let c := if swap then __byte_swap_32 c else c
      __utf8_chars_for_codepoint c +
        utf32_in_utf8_len_loop str swap fuel (str.getD s 0) (s+1)

def utf32_in_utf8_len (str : List Nat) (swap : Bool) : Nat :=
  utf32_in_utf8_len_loop str swap (str.length + 2) (str.getD 0 0) 0

def utf32_in_utf16_len_loop (str : List Nat) (swap : Bool) : Nat → Nat → Nat → Nat
  | 0, _, _ => 0
  | fuel+1, c, s =>
    if c = 0 then 0
    else
      let c := if swap then __byte_swap_32 c else c
      (if c > UTF16_ONE_CHAR_LIMIT then 2 else 1) +
        utf32_in_utf16_len_loop str swap fuel (str.getD s 0) (s+1)

def utf32_in_utf16_len (str : List Nat) (swap : Bool) : Nat :=
  utf32_in_utf16_len_loop str swap (str.length + 2) (str.getD 0 0) 0

/-! ### String validation functions (lines 655-771) -/

/-- The bad-continuation test from `utf8_validate`:
`!str[j] || !(str[j] >> 7) || ((str[j] >> 6) & 1)`. -/
def utf8_cont_bad (b : Nat) : Bool :=
  b == 0 || (b >>> 7) == 0 || ((b >>> 6) &&& 1) == 1

/-- The inner `for (j = 1; j < char_count; j++)` loop of `utf8_validate`:
true when some trailing unit of the sequence starting at `s` is bad. -/
def utf8_trailing_bad (str : List Nat) (s char_count : Nat) : Bool :=
  (List.range (char_count - 1)).any fun j => utf8_cont_bad (str.getD (s + 1 + j) 0)

/-- `utf8_validate`'s loop is `for (c = (*str); c; c = (*str))` with the body
advancing `str += char_count`: the state is just the index `s`. -/
def utf8_validate_loop (str : List Nat) : Nat → Nat → Nat
  | 0, _ => 0
  | fuel+1, s =>
    let c := str.getD s 0
    if c = 0 then 0
    else
      let char_count := UTF8_TRAILING_COUNT c + 1
      if char_count > UTF8_SEQ_MAX_CHARS then 6
      else if utf8_trailing_bad str s char_count then 4
      else
        let codepoint := __utf8_decode str s char_count
        let validity_result := __codepoint_is_valid codepoint
        if validity_result ≠ 0 then validity_result
        else if char_count ≠ __utf8_chars_for_codepoint codepoint then 6
        else utf8_validate_loop str fuel (s + char_count)

def utf8_validate (str : List Nat) (_ : Bool) : Nat :=
  utf8_validate_loop str (str.length + 2) 0

/-- `utf16_validate`'s loop is `for (c = (*str); c; c = (*str++))`; inside the
high-surrogate branch the source reads `next_char = (*str++)` with NO byte
swap applied to it.  State is `(c, s)` as for the sizing loops. -/
def utf16_validate_loop (str : List Nat) (swap : Bool) : Nat → Nat → Nat → Nat
  | 0, _, _ => 0
  | fuel+1, c, s =>
    if c = 0 then 0
    else
      let c := if swap then __byte_swap_16 c else c
      if SURROGATE_HIGH_START ≤ c ∧ c ≤ SURROGATE_HIGH_END then
        let next_char := str.getD s 0
        if next_char = 0 then 1
        else if next_char < SURROGATE_LOW_START ∨ SURROGATE_LOW_END < next_char then 1
        else
          let codepoint := __utf16_decode c next_char
          let validity_result := __codepoint_is_valid codepoint
          if validity_result ≠ 0 then validity_result
          else utf16_validate_loop str swap fuel (str.getD (s+1) 0) (s+2)
      else
        let validity_result := __codepoint_is_valid c
        if validity_result ≠ 0 then validity_result
        else utf16_validate_loop str swap fuel (str.getD s 0) (s+1)

def utf16_validate (str : List Nat) (swap : Bool) : Nat :=
  utf16_validate_loop str swap (str.length + 2) (str.getD 0 0) 0

def utf32_validate_loop (str : List Nat) (swap : Bool) : Nat → Nat → Nat → Nat
  | 0, _, _ => 0
  | fuel+1, c, s =>
    if c = 0 then 0
    else
      let c := if swap then __byte_swap_32 c else c
      let validity_result := __codepoint_is_valid c
      if validity_result ≠ 0 then validity_result
      else utf32_validate_loop str swap fuel (str.getD s 0) (s+1)

def utf32_validate (str : List Nat) (swap : Bool) : Nat :=
  utf32_validate_loop str swap (str.length + 2) (str.getD 0 0) 0

/-! ### `STRLEN` — the three strlen functions (lines 778-798)

One macro, three widths: walk to the first zero unit and return the offset. -/

def strlen_loop (str : List Nat) : Nat → Nat → Nat
  | 0, s => s
  | fuel+1, s => if str.getD s 0 = 0 then s else strlen_loop str fuel (s + 1)

def strlen_utf8 (str : List Nat) : Nat := strlen_loop str (str.length + 2) 0

def strlen_utf16 (str : List Nat) : Nat := strlen_loop str (str.length + 2) 0

def strlen_utf32 (str : List Nat) : Nat := strlen_loop str (str.length + 2) 0

/-! ### Vocabulary used by the claims -/

/-- Walk a zero-terminated buffer with a codepoint decoder exactly the way the
transcoders consume their source: decode one codepoint at a time, collecting
the decoded codepoints, until the decoder yields the terminating 0 codepoint
or the buffer is exhausted. -/
def decode_walk (dec : List Nat → Nat → Nat → Bool → Nat × Nat)
    (buf : List Nat) (swap : Bool) : Nat → Nat → List Nat
  | 0, _ => []
  | fuel+1, si =>
    if si < buf.length then
      let r := dec buf si (buf.length - si) swap
      if r.1 = 0 then []
      else r.1 :: decode_walk dec buf swap fuel (si + r.2)
    else []

/-- The codepoints obtained by walking a UTF-16 buffer with
`__codepoint_from_utf16`. -/
def utf16_codepoints (buf : List Nat) (swap : Bool) : List Nat :=
  decode_walk __codepoint_from_utf16 buf swap (buf.length + 1) 0

/-- Specification transcoder, written from the wording of the transcoder
contract (spec §4.4): convert codepoint by codepoint, stopping at the first
of source exhausted, destination exhausted, or a decoded codepoint equal to
0; the terminating 0 codepoint is neither written to the destination nor
counted; the consumed source-unit count is returned and the produced
destination-unit count is reported through the capacity parameter. -/
def transcode_spec_loop (dec : List Nat → Nat → Nat → Bool → Nat × Nat)
    (enc : Nat → Mem → Nat → Nat → Bool → Mem × Nat)
    (src : List Nat) (swap : Bool) (dest_cap src_size : Nat) :
    Nat → Mem → Nat → Nat → ConvResult
  | 0, m, di, si => ⟨m, di, si⟩
  | fuel+1, m, di, si =>
    if di < dest_cap ∧ si < src_size then
      let r := dec src si (src_size - si) swap
      if r.1 = 0 then ⟨m, di, si⟩
      else
        let e := enc r.1 m di (dest_cap - di) swap
        transcode_spec_loop dec enc src swap dest_cap src_size fuel e.1
          (di + e.2) (si + r.2)
    else ⟨m, di, si⟩

def transcode_spec (dec : List Nat → Nat → Nat → Bool → Nat × Nat)
    (enc : Nat → Mem → Nat → Nat → Bool → Mem × Nat)
    (dest : Mem) (dest_size : Nat) (src : List Nat) (src_size : Nat)
    (swap : Bool) : ConvResult :=
  transcode_spec_loop dec enc src swap dest_size src_size (src_size + 1) dest 0 0

/-- Agreement of two transcoder results in everything the transcoder
contract promises: the consumed count, the produced count, and the contents
of the produced destination cells. -/
def ConvAgrees (a b : ConvResult) : Prop :=
  a.consumed = b.consumed ∧ a.produced = b.produced ∧
    ∀ j, j < a.produced → a.buf j = b.buf j

/-- Two buffers agree on every code unit up to and including their first zero
unit: some index `z` reads zero, every index below it reads nonzero, and the
two buffers read the same at every index up to `z`. -/
def AgreeThruZero (A B : List Nat) : Prop :=
  ∃ z, A.getD z 0 = 0 ∧ (∀ i, i < z → A.getD i 0 ≠ 0) ∧
    (∀ i, i ≤ z → A.getD i 0 = B.getD i 0)

/-- One well-formed, minimally encoded UTF-8 sequence at position `s`:
exactly the conditions under which `utf8_validate` walks past the sequence
without reporting an error. -/
def Utf8SeqGood (str : List Nat) (s : Nat) : Prop :=
  UTF8_TRAILING_COUNT (str.getD s 0) + 1 ≤ UTF8_SEQ_MAX_CHARS ∧
  utf8_trailing_bad str s (UTF8_TRAILING_COUNT (str.getD s 0) + 1) = false ∧
  __codepoint_is_valid
    (__utf8_decode str s (UTF8_TRAILING_COUNT (str.getD s 0) + 1)) = 0 ∧
  UTF8_TRAILING_COUNT (str.getD s 0) + 1 =
    __utf8_chars_for_codepoint
      (__utf8_decode str s (UTF8_TRAILING_COUNT (str.getD s 0) + 1))

instance (str : List Nat) (s : Nat) : Decidable (Utf8SeqGood str s) := by
  unfold Utf8SeqGood
  infer_instance

/-- The positions the `utf8_validate` walk reaches: position 0, and the
position just past any reachable good sequence with a nonzero leader.
A violation at a reachable position is the first violation in the string. -/
inductive Utf8Reaches (str : List Nat) : Nat → Prop
  | zero : Utf8Reaches str 0
  | step (s : Nat) : Utf8Reaches str s → str.getD s 0 ≠ 0 → Utf8SeqGood str s →
      Utf8Reaches str (s + (UTF8_TRAILING_COUNT (str.getD s 0) + 1))

/-! ### Encoders never touch destination cells below their base index -/

lemma mwrite_lower (m : Mem) (i v j : Nat) (h : j < i) : mwrite m i v j = m j := by
  simp [mwrite, Nat.ne_of_lt h]

lemma mbzero_lower (m : Mem) (i n j : Nat) (h : j < i) : mbzero m i n j = m j := by
  induction n with
  | zero => rfl
  | succ n ih =>
    show mwrite (mbzero m i n) (i + n) 0 j = m j
    rw [mwrite_lower _ _ _ _ (by omega), ih]

lemma __utf8_from_codepoint_lower (cp : Nat) (m : Mem) (di cap : Nat) (bb : Bool)
    (j : Nat) (h : j < di) : (__utf8_from_codepoint cp m di cap bb).1 j = m j := by
  unfold __utf8_from_codepoint
  by_cases h1 : cp < UTF8_ONE_CHAR_LIMIT
  · simp only [if_pos h1]
    exact mwrite_lower _ _ _ _ h
  · simp only [if_neg h1]
    by_cases h2 : __utf8_chars_for_codepoint cp > cap
    · simp only [if_pos h2]
      exact mbzero_lower _ _ _ _ h
    · simp only [if_neg h2]
      have h3 : __utf8_chars_for_codepoint cp = 2 ∨ __utf8_chars_for_codepoint cp = 3 ∨
          __utf8_chars_for_codepoint cp = 4 := by
        unfold __utf8_chars_for_codepoint UTF8_ONE_CHAR_LIMIT at h1 ⊢
        split_ifs <;> omega
      rcases h3 with h3 | h3 | h3 <;> rw [h3] <;>
        simp only [mwrite] <;> split_ifs <;> first | rfl | omega

lemma __utf16_from_codepoint_lower (cp : Nat) (m : Mem) (di cap : Nat) (swap : Bool)
    (j : Nat) (h : j < di) : (__utf16_from_codepoint cp m di cap swap).1 j = m j := by
  unfold __utf16_from_codepoint
  by_cases h1 : cp < UTF16_ONE_CHAR_LIMIT
  · simp only [if_pos h1]
    exact mwrite_lower _ _ _ _ h
  · simp only [if_neg h1]
    by_cases h2 : cap ≥ 2
    · simp only [if_pos h2]
      simp only [mwrite]
      split_ifs <;> first | rfl | omega
    · simp only [if_neg h2]
      exact mwrite_lower _ _ _ _ h

lemma __utf32_from_codepoint_lower (cp : Nat) (m : Mem) (di cap : Nat) (swap : Bool)
    (j : Nat) (h : j < di) : (__utf32_from_codepoint cp m di cap swap).1 j = m j :=
  mwrite_lower _ _ _ _ h

/-! ### The transcoder loop refines the contract's loop

The two loops run in lockstep; they differ only when the decoded codepoint is
the 0 terminator, where the implementation still calls the encoder (writing a
zero unit at the current destination cell) before breaking.  Since every
encoder only writes cells at or above its base index, the two agree on the
consumed count, the produced count, and every produced destination cell. -/

lemma utfconv_loop_refines (dec : List Nat → Nat → Nat → Bool → Nat × Nat)
    (enc : Nat → Mem → Nat → Nat → Bool → Mem × Nat)
    (henc : ∀ cp m di cap swap j, j < di → (enc cp m di cap swap).1 j = m j)
    (src : List Nat) (swap : Bool) (dest_cap src_size : Nat) :
    ∀ fuel m di si,
      ConvAgrees (utfconv_loop dec enc src swap dest_cap src_size fuel m di si)
        (transcode_spec_loop dec enc src swap dest_cap src_size fuel m di si) := by
  intro fuel
  induction fuel with
  | zero => exact fun m di si => ⟨rfl, rfl, fun j _ => rfl⟩
  | succ fuel ih =>
    intro m di si
    by_cases hb : di < dest_cap ∧ si < src_size
    · by_cases hz : (dec src si (src_size - si) swap).1 = 0
      · simp only [utfconv_loop, transcode_spec_loop, if_pos hb, if_pos hz]
        exact ⟨rfl, rfl, fun j hj => henc _ _ _ _ _ _ hj⟩
      · simp only [utfconv_loop, transcode_spec_loop, if_pos hb, if_neg hz]
        exact ih _ _ _
    · simp only [utfconv_loop, transcode_spec_loop, if_neg hb]
      exact ⟨rfl, rfl, fun j _ => rfl⟩

/-! ### Prefix determinism machinery (claim C9)

Two buffers that agree up to and including their first zero unit drive the
validators, the strlen functions and the UTF-32-source length estimators
through identical executions, since those loops never read past the first
zero unit. -/

lemma range_any_congr (f g : Nat → Bool) :
    ∀ n, (∀ j, j < n → f j = g j) → (List.range n).any f = (List.range n).any g := by
  intro n
  induction n with
  | zero => intro _; rfl
  | succ n ih =>
    intro h
    rw [List.range_succ, List.any_append, List.any_append,
      ih (fun j hj => h j (by omega))]
    simp [h n (by omega)]

lemma utf8_trailing_bad_agree (A B : List Nat) (z s cc : Nat)
    (hzA : A.getD z 0 = 0)
    (hag : ∀ i, i ≤ z → A.getD i 0 = B.getD i 0)
    (hs : s < z) :
    utf8_trailing_bad A s cc = utf8_trailing_bad B s cc := by
  by_cases hin : s + cc ≤ z + 1
  · unfold utf8_trailing_bad
    exact range_any_congr _ _ _ (fun j hj => by rw [hag (s + 1 + j) (by omega)])
  · have hA : utf8_trailing_bad A s cc = true := by
      unfold utf8_trailing_bad
      refine List.any_eq_true.mpr ⟨z - (s + 1), List.mem_range.mpr (by omega), ?_⟩
      have hzz : s + 1 + (z - (s + 1)) = z := by omega
      rw [hzz, hzA]
      rfl
    have hB : utf8_trailing_bad B s cc = true := by
      unfold utf8_trailing_bad
      refine List.any_eq_true.mpr ⟨z - (s + 1), List.mem_range.mpr (by omega), ?_⟩
      have hzz : s + 1 + (z - (s + 1)) = z := by omega
      rw [hzz, ← hag z (le_refl z), hzA]
      rfl
    rw [hA, hB]

lemma __utf8_decode_agree (A B : List Nat) (s cnt : Nat) (hcnt : cnt ≤ 4)
    (hag : ∀ j, j < s + cnt → A.getD j 0 = B.getD j 0) :
    __utf8_decode A s cnt = __utf8_decode B s cnt := by
  interval_cases cnt
  · rfl
  · unfold __utf8_decode
    rw [hag s (by omega)]
  · unfold __utf8_decode
    rw [hag s (by omega), hag (s+1) (by omega)]
  · unfold __utf8_decode
    rw [hag s (by omega), hag (s+1) (by omega), hag (s+2) (by omega)]
  · unfold __utf8_decode
    rw [hag s (by omega), hag (s+1) (by omega), hag (s+2) (by omega),
      hag (s+3) (by omega)]

lemma utf8_validate_loop_agree (A B : List Nat) (z : Nat)
    (hzA : A.getD z 0 = 0) (hnz : ∀ i, i < z → A.getD i 0 ≠ 0)
    (hag : ∀ i, i ≤ z → A.getD i 0 = B.getD i 0) :
    ∀ fa fb s, z + 2 ≤ fa + s → z + 2 ≤ fb + s → s ≤ z →
      utf8_validate_loop A fa s = utf8_validate_loop B fb s := by
  intro fa
  induction fa with
  | zero =>
    intro fb s h1 _ hs
    exact absurd hs (by omega)
  | succ fa ih =>
    intro fb s h1 h2 hs
    cases fb with
    | zero => exact absurd hs (by omega)
    | succ fb =>
      have hc : A.getD s 0 = B.getD s 0 := hag s hs
      simp only [utf8_validate_loop]
      rw [← hc]
      by_cases hc0 : A.getD s 0 = 0
      · simp only [if_pos hc0]
      · simp only [if_neg hc0]
        have hsz : s < z := by
          rcases Nat.lt_or_ge s z with h | h
          · exact h
          · have : s = z := by omega
            rw [this] at hc0
            exact absurd hzA hc0
        rw [← utf8_trailing_bad_agree A B z s _ hzA hag hsz]
        by_cases hcc : UTF8_TRAILING_COUNT (A.getD s 0) + 1 > UTF8_SEQ_MAX_CHARS
        · simp only [if_pos hcc]
        · simp only [if_neg hcc]
          by_cases hb : utf8_trailing_bad A s (UTF8_TRAILING_COUNT (A.getD s 0) + 1) = true
          · simp only [hb, if_true, if_pos trivial]
          · have hb' : utf8_trailing_bad A s (UTF8_TRAILING_COUNT (A.getD s 0) + 1) = false :=
              Bool.eq_false_iff.mpr hb
            simp only [hb', if_neg (Bool.false_ne_true)]
            have hcz : s + (UTF8_TRAILING_COUNT (A.getD s 0) + 1) ≤ z := by
              by_contra hh
              have hw : utf8_trailing_bad A s (UTF8_TRAILING_COUNT (A.getD s 0) + 1) = true := by
                unfold utf8_trailing_bad
                refine List.any_eq_true.mpr ⟨z - (s + 1), List.mem_range.mpr (by omega), ?_⟩
                have hzz : s + 1 + (z - (s + 1)) = z := by omega
                rw [hzz, hzA]
                rfl
              rw [hw] at hb'
              simp at hb'
            rw [← __utf8_decode_agree A B s _ (by unfold UTF8_SEQ_MAX_CHARS at hcc; omega)
              (fun j hj => hag j (by omega))]
            split_ifs
            · rfl
            · rfl
            · exact ih fb (s + (UTF8_TRAILING_COUNT (A.getD s 0) + 1)) (by omega) (by omega) hcz

lemma utf16_validate_loop_agree (A B : List Nat) (swap : Bool) (z : Nat)
    (hzA : A.getD z 0 = 0)
    (hag : ∀ i, i ≤ z → A.getD i 0 = B.getD i 0) :
    ∀ fa fb c s, z + 2 ≤ fa + s → z + 2 ≤ fb + s → (c ≠ 0 → s ≤ z) → s ≤ z + 1 →
      utf16_validate_loop A swap fa c s = utf16_validate_loop B swap fb c s := by
  intro fa
  induction fa with
  | zero =>
    intro fb c s h1 h2 hcz hs1
    exact absurd hs1 (by omega)
  | succ fa ih =>
    intro fb c s h1 h2 hcz hs1
    cases fb with
    | zero => exact absurd hs1 (by omega)
    | succ fb =>
      simp only [utf16_validate_loop]
      by_cases hc0 : c = 0
      · simp only [if_pos hc0]
      · simp only [if_neg hc0]
        have hsz : s ≤ z := hcz hc0
        by_cases hhs : SURROGATE_HIGH_START ≤ (if swap then __byte_swap_16 c else c) ∧
            (if swap then __byte_swap_16 c else c) ≤ SURROGATE_HIGH_END
        · simp only [if_pos hhs]
          rw [← hag s hsz]
          by_cases hn0 : A.getD s 0 = 0
          · simp only [if_pos hn0]
          · simp only [if_neg hn0]
            have hsz' : s < z := by
              rcases Nat.lt_or_ge s z with h | h
              · exact h
              · have he : s = z := by omega
                rw [he] at hn0
                exact absurd hzA hn0
            rw [← hag (s+1) (by omega)]
            split_ifs <;>
              first
                | rfl
                | exact ih fb (A.getD (s+1) 0) (s+2) (by omega) (by omega)
                    (fun hne => by
                      have hne' : s + 1 ≠ z := fun he => hne (he ▸ hzA)
                      omega)
                    (by omega)
        · simp only [if_neg hhs]
          rw [← hag s hsz]
          split_ifs <;>
            first
              | rfl
              | exact ih fb (A.getD s 0) (s+1) (by omega) (by omega)
                  (fun hne => by
                    have hne' : s ≠ z := fun he => hne (he ▸ hzA)
                    omega)
                  (by omega)

lemma utf32_validate_loop_agree (A B : List Nat) (swap : Bool) (z : Nat)
    (hzA : A.getD z 0 = 0)
    (hag : ∀ i, i ≤ z → A.getD i 0 = B.getD i 0) :
    ∀ fa fb c s, z + 2 ≤ fa + s → z + 2 ≤ fb + s → (c ≠ 0 → s ≤ z) → s ≤ z + 1 →
      utf32_validate_loop A swap fa c s = utf32_validate_loop B swap fb c s := by
  intro fa
  induction fa with
  | zero =>
    intro fb c s h1 h2 hcz hs1
    exact absurd hs1 (by omega)
  | succ fa ih =>
    intro fb c s h1 h2 hcz hs1
    cases fb with
    | zero => exact absurd hs1 (by omega)
    | succ fb =>
      simp only [utf32_validate_loop]
      by_cases hc0 : c = 0
      · simp only [if_pos hc0]
      · simp only [if_neg hc0]
        have hsz : s ≤ z := hcz hc0
        rw [← hag s hsz]
        split_ifs <;>
          first
            | rfl
            | exact ih fb (A.getD s 0) (s+1) (by omega) (by omega)
                (fun hne => by
                  have hne' : s ≠ z := fun he => hne (he ▸ hzA)
                  omega)
                (by omega)

lemma utf32_in_utf8_len_loop_agree (A B : List Nat) (swap : Bool) (z : Nat)
    (hzA : A.getD z 0 = 0)
    (hag : ∀ i, i ≤ z → A.getD i 0 = B.getD i 0) :
    ∀ fa fb c s, z + 2 ≤ fa + s → z + 2 ≤ fb + s → (c ≠ 0 → s ≤ z) → s ≤ z + 1 →
      utf32_in_utf8_len_loop A swap fa c s = utf32_in_utf8_len_loop B swap fb c s := by
  intro fa
  induction fa with
  | zero =>
    intro fb c s h1 h2 hcz hs1
    exact absurd hs1 (by omega)
  | succ fa ih =>
    intro fb c s h1 h2 hcz hs1
    cases fb with
    | zero => exact absurd hs1 (by omega)
    | succ fb =>
      simp only [utf32_in_utf8_len_loop]
      by_cases hc0 : c = 0
      · simp only [if_pos hc0]
      · simp only [if_neg hc0]
        have hsz : s ≤ z := hcz hc0
        rw [← hag s hsz]
        rw [ih fb (A.getD s 0) (s+1) (by omega) (by omega)
          (fun hne => by
            have hne' : s ≠ z := fun he => hne (he ▸ hzA)
            omega)
          (by omega)]

lemma utf32_in_utf16_len_loop_agree (A B : List Nat) (swap : Bool) (z : Nat)
    (hzA : A.getD z 0 = 0)
    (hag : ∀ i, i ≤ z → A.getD i 0 = B.getD i 0) :
    ∀ fa fb c s, z + 2 ≤ fa + s → z + 2 ≤ fb + s → (c ≠ 0 → s ≤ z) → s ≤ z + 1 →
      utf32_in_utf16_len_loop A swap fa c s = utf32_in_utf16_len_loop B swap fb c s := by
  intro fa
  induction fa with
  | zero =>
    intro fb c s h1 h2 hcz hs1
    exact absurd hs1 (by omega)
  | succ fa ih =>
    intro fb c s h1 h2 hcz hs1
    cases fb with
    | zero => exact absurd hs1 (by omega)
    | succ fb =>
      simp only [utf32_in_utf16_len_loop]
      by_cases hc0 : c = 0
      · simp only [if_pos hc0]
      · simp only [if_neg hc0]
        have hsz : s ≤ z := hcz hc0
        rw [← hag s hsz]
        rw [ih fb (A.getD s 0) (s+1) (by omega) (by omega)
          (fun hne => by
            have hne' : s ≠ z := fun he => hne (he ▸ hzA)
            omega)
          (by omega)]

lemma strlen_loop_eq (A : List Nat) (z : Nat)
    (hzA : A.getD z 0 = 0) (hnz : ∀ i, i < z → A.getD i 0 ≠ 0) :
    ∀ fuel s, z + 1 ≤ fuel + s → s ≤ z → strlen_loop A fuel s = z := by
  intro fuel
  induction fuel with
  | zero =>
    intro s h1 hs
    exact absurd hs (by omega)
  | succ fuel ih =>
    intro s h1 hs
    simp only [strlen_loop]
    by_cases h : A.getD s 0 = 0
    · have he : s = z := by
        rcases Nat.lt_or_ge s z with hlt | hge
        · exact absurd h (hnz s hlt)
        · omega
      rw [if_pos h, he]
    · have hlt : s < z := by
        rcases Nat.lt_or_ge s z with hlt | hge
        · exact hlt
        · have he : s = z := by omega
          rw [he] at h
          exact absurd hzA h
      simp only [if_neg h]
      exact ih (s+1) (by omega) (by omega)

/-- Unpack `AgreeThruZero`: the shared first-zero index lies within both
buffers and everything needed about both of them. -/
lemma agreeThruZero_elim (A B : List Nat) (h : AgreeThruZero A B) :
    ∃ z, z ≤ A.length ∧ z ≤ B.length ∧ A.getD z 0 = 0 ∧
      (∀ i, i < z → A.getD i 0 ≠ 0) ∧ (∀ i, i ≤ z → A.getD i 0 = B.getD i 0) := by
  obtain ⟨z, hz, hnz, hag⟩ := h
  have hzA : z ≤ A.length := by
    by_contra hh
    exact hnz A.length (by omega) (List.getD_eq_default _ _ (le_refl _))
  have hzB : z ≤ B.length := by
    by_contra hh
    have h0 : B.getD B.length 0 = 0 := List.getD_eq_default _ _ (le_refl _)
    exact hnz B.length (by omega) ((hag B.length (by omega)).trans h0)
  exact ⟨z, hzA, hzB, hz, hnz, hag⟩

/-! ### First-violation machinery for `utf8_validate` (claim C7) -/

lemma utf8_validate_loop_stable (A : List Nat) :
    ∀ f1 f2 s, A.length + 2 ≤ f1 + s → A.length + 2 ≤ f2 + s →
      utf8_validate_loop A f1 s = utf8_validate_loop A f2 s := by
  intro f1
  induction f1 with
  | zero =>
    intro f2 s h1 h2
    cases f2 with
    | zero => rfl
    | succ f2 =>
      show 0 = utf8_validate_loop A (f2+1) s
      simp only [utf8_validate_loop]
      rw [List.getD_eq_default _ _ (by omega : A.length ≤ s)]
      simp
  | succ f1 ih =>
    intro f2 s h1 h2
    cases f2 with
    | zero =>
      show utf8_validate_loop A (f1+1) s = 0
      simp only [utf8_validate_loop]
      rw [List.getD_eq_default _ _ (by omega : A.length ≤ s)]
      simp
    | succ f2 =>
      simp only [utf8_validate_loop]
      split_ifs
      · rfl
      · rfl
      · rfl
      · rfl
      · rfl
      · exact ih f2 (s + (UTF8_TRAILING_COUNT (A.getD s 0) + 1)) (by omega) (by omega)

lemma utf8_reaches_validate (A : List Nat) (swap : Bool) :
    ∀ s, Utf8Reaches A s → ∀ f, A.length + 2 ≤ f + s →
      utf8_validate A swap = utf8_validate_loop A f s := by
  intro s h
  induction h with
  | zero =>
    intro f hf
    exact utf8_validate_loop_stable A (A.length + 2) f 0 (by omega) (by omega)
  | step s hr hnz hgood ih =>
    intro f hf
    have hs_len : s < A.length := by
      by_contra hh
      exact hnz (List.getD_eq_default _ _ (by omega))
    have step1 : utf8_validate A swap = utf8_validate_loop A (A.length + 2 - s) s :=
      ih (A.length + 2 - s) (by omega)
    obtain ⟨hg1, hg2, hg3, hg4⟩ := hgood
    have hk : A.length + 2 - s = (A.length + 1 - s) + 1 := by omega
    rw [step1, hk]
    simp only [utf8_validate_loop]
    rw [if_neg hnz, if_neg (by omega), if_neg (by rw [hg2]; decide), if_neg (by omega),
      if_neg (by omega)]
    exact utf8_validate_loop_stable A (A.length + 1 - s)
      f (s + (UTF8_TRAILING_COUNT (A.getD s 0) + 1)) (by omega) (by omega)

/-! ### Claim theorems -/

/-- Claim C1 (code bug): the round-trip law fails.  The well-formed UTF-8
string `F0 90 80 80` (U+10000, accepted by `utf8_validate`) transcodes to the
surrogate pair `D800 DC00`, but transcoding that back to UTF-8 yields two
replacement characters `EF BF BD EF BF BD` instead of the original bytes,
because `__codepoint_from_utf16` rejects the boundary low surrogate 0xDC00. -/
theorem C1_roundtrip_fails :
    utf8_validate [0xF0, 0x90, 0x80, 0x80, 0] false = 0 ∧
    (enc_utf8_to_utf16 mem0 8 [0xF0, 0x90, 0x80, 0x80] 4 false).produced = 2 ∧
    memOut (enc_utf8_to_utf16 mem0 8 [0xF0, 0x90, 0x80, 0x80] 4 false).buf 2 =
      [0xD800, 0xDC00] ∧
    memOut (enc_utf16_to_utf8 mem0 8 [0xD800, 0xDC00] 2 false).buf
        (enc_utf16_to_utf8 mem0 8 [0xD800, 0xDC00] 2 false).produced =
      [0xEF, 0xBF, 0xBD, 0xEF, 0xBF, 0xBD] := by decide

/-- Claim C2 (code bug): `utf16_validate` accepts the buffer
`41 D800 DC00 0` (returns 0), yet walking the same buffer with the UTF-16
codepoint decoder substitutes U+FFFD for the surrogate pair, refuting the
claimed equivalence between the validator and a substitution-free decode. -/
theorem C2_validator_decoder_disagree :
    utf16_validate [0x41, 0xD800, 0xDC00, 0] false = 0 ∧
    utf16_codepoints [0x41, 0xD800, 0xDC00, 0] false = [0x41, 0xFFFD, 0xFFFD] := by
  decide

/-- Claim C3 (code bug): the estimators do not report the encoder's unit
count.  `utf8_in_utf16_len` on the one-character string "A" reports 2 while
the UTF-16 encoder produces 1 unit (the loop initialisation reads the first
unit twice); `utf32_in_utf16_len` on two copies of U+10000 reports 3 while
the UTF-16 encoder produces 4 units (the one-char test uses `>` instead of
`>=` at 0x10000). -/
theorem C3_estimator_mismatch :
    utf8_in_utf16_len [0x41, 0] false = 2 ∧
    (__utf16_from_codepoint 0x41 mem0 0 8 false).2 = 1 ∧
    utf32_in_utf16_len [0x10000, 0x10000, 0] false = 3 ∧
    (enc_utf32_to_utf16 mem0 8 [0x10000, 0x10000] 2 false).produced = 4 := by decide

/-- Claim C4 (code bug): `__codepoint_from_utf16` consumes 1 unit and returns
U+FFFD on the pairs `D800 DC00` and `D800 DFFF`, whose second unit is a
boundary low surrogate, while an interior low surrogate such as `DC01`
decodes as the claim describes. -/
theorem C4_boundary_low_surrogate_rejected :
    __codepoint_from_utf16 [0xD800, 0xDC00] 0 2 false = (0xFFFD, 1) ∧
    __codepoint_from_utf16 [0xD800, 0xDFFF] 0 2 false = (0xFFFD, 1) ∧
    __codepoint_from_utf16 [0xD800, 0xDC01] 0 2 false = (0x10001, 2) := by decide

/-- Claim C5 (amended): each of the six transcoders agrees with the contract
transcoder `transcode_spec` on the consumed count it returns, the produced
count it stores through the capacity parameter, and the contents of every
produced destination cell; only cells past the produced count may differ
(the implementation writes a zero unit there when it meets the terminator). -/
theorem C5_transcoder_contract (dest : Mem) (cap : Nat) (src : List Nat)
    (src_size : Nat) (swap : Bool) :
    ConvAgrees (enc_utf8_to_utf16 dest cap src src_size swap)
      (transcode_spec __codepoint_from_utf8 __utf16_from_codepoint
        dest cap src src_size swap) ∧
    ConvAgrees (enc_utf8_to_utf32 dest cap src src_size swap)
      (transcode_spec __codepoint_from_utf8 __utf32_from_codepoint
        dest cap src src_size swap) ∧
    ConvAgrees (enc_utf16_to_utf8 dest cap src src_size swap)
      (transcode_spec __codepoint_from_utf16 __utf8_from_codepoint
        dest cap src src_size swap) ∧
    ConvAgrees (enc_utf16_to_utf32 dest cap src src_size swap)
      (transcode_spec __codepoint_from_utf16 __utf32_from_codepoint
        dest cap src src_size swap) ∧
    ConvAgrees (enc_utf32_to_utf16 dest cap src src_size swap)
      (transcode_spec __codepoint_from_utf32 __utf16_from_codepoint
        dest cap src src_size swap) ∧
    ConvAgrees (enc_utf32_to_utf8 dest cap src src_size swap)
      (transcode_spec __codepoint_from_utf32 __utf8_from_codepoint
        dest cap src src_size swap) :=
  ⟨utfconv_loop_refines _ _ __utf16_from_codepoint_lower src swap cap src_size _ dest 0 0,
   utfconv_loop_refines _ _ __utf32_from_codepoint_lower src swap cap src_size _ dest 0 0,
   utfconv_loop_refines _ _ __utf8_from_codepoint_lower src swap cap src_size _ dest 0 0,
   utfconv_loop_refines _ _ __utf32_from_codepoint_lower src swap cap src_size _ dest 0 0,
   utfconv_loop_refines _ _ __utf16_from_codepoint_lower src swap cap src_size _ dest 0 0,
   utfconv_loop_refines _ _ __utf8_from_codepoint_lower src swap cap src_size _ dest 0 0⟩

/-- Claim C5 counterexample: converting the buffer `41 00` writes the
decoded 0 terminator into destination cell 1 (the cell just past the single
produced unit), so the terminating 0 codepoint IS written to the destination
buffer, contradicting the claim as stated. -/
theorem C5_terminator_written :
    (enc_utf8_to_utf16 mem0 2 [0x41, 0] 2 false).produced = 1 ∧
    (enc_utf8_to_utf16 mem0 2 [0x41, 0] 2 false).consumed = 1 ∧
    (enc_utf8_to_utf16 mem0 2 [0x41, 0] 2 false).buf 1 = some 0 := by decide

/-- Claim C6 (code bug): byte order is NOT swapped on every 16-bit read.
The well-formed string `41 D800 DC05` validates to 0 unswapped, but its
byte-swapped image under `swap = true` validates to 1, because
`utf16_validate` reads the unit following a high surrogate without applying
the swap. -/
theorem C6_swap_missing_on_pair_read :
    utf16_validate [0x41, 0xD800, 0xDC05, 0] false = 0 ∧
    utf16_validate ([0x41, 0xD800, 0xDC05, 0].map __byte_swap_16) true = 1 := by decide

/-- Claim C7 (amended): at any position the `utf8_validate` walk reaches with
a nonzero leader, (a) a sequence longer than 4 units (leading byte
0xF8-0xFF) yields 6; (b) a sequence of at most 4 units with a bad or zero
continuation unit yields 4; (c) a sequence of at most 4 units with good
continuation units whose codepoint is VALID and minimally encodable in fewer
units than used yields 6.  (When such an overlong sequence decodes into the
surrogate range or beyond 0x10FFFF, the codepoint-validity code 2 or 3 is
returned instead of 6 — see the counterexample.) -/
theorem C7_error_taxonomy (str : List Nat) (swap : Bool) (s : Nat)
    (hr : Utf8Reaches str s) (hnz : str.getD s 0 ≠ 0) :
    (UTF8_TRAILING_COUNT (str.getD s 0) + 1 > UTF8_SEQ_MAX_CHARS →
      utf8_validate str swap = 6) ∧
    (UTF8_TRAILING_COUNT (str.getD s 0) + 1 ≤ UTF8_SEQ_MAX_CHARS →
      utf8_trailing_bad str s (UTF8_TRAILING_COUNT (str.getD s 0) + 1) = true →
      utf8_validate str swap = 4) ∧
    (UTF8_TRAILING_COUNT (str.getD s 0) + 1 ≤ UTF8_SEQ_MAX_CHARS →
      utf8_trailing_bad str s (UTF8_TRAILING_COUNT (str.getD s 0) + 1) = false →
      __codepoint_is_valid
        (__utf8_decode str s (UTF8_TRAILING_COUNT (str.getD s 0) + 1)) = 0 →
      __utf8_chars_for_codepoint
          (__utf8_decode str s (UTF8_TRAILING_COUNT (str.getD s 0) + 1)) <
        UTF8_TRAILING_COUNT (str.getD s 0) + 1 →
      utf8_validate str swap = 6) := by
  have hs_len : s < str.length := by
    by_contra hh
    exact hnz (List.getD_eq_default _ _ (by omega))
  have hval : utf8_validate str swap = utf8_validate_loop str (str.length + 2 - s) s :=
    utf8_reaches_validate str swap s hr (str.length + 2 - s) (by omega)
  have hk : str.length + 2 - s = (str.length + 1 - s) + 1 := by omega
  rw [hval, hk]
  refine ⟨?_, ?_, ?_⟩
  · intro h1
    simp only [utf8_validate_loop]
    rw [if_neg hnz, if_pos h1]
  · intro h1 h2
    simp only [utf8_validate_loop]
    rw [if_neg hnz, if_neg (by omega), if_pos h2]
  · intro h1 h2 h3 h4
    simp only [utf8_validate_loop]
    rw [if_neg hnz, if_neg (by omega), if_neg (by rw [h2]; decide), if_neg (by omega),
      if_pos (by omega)]

/-- Claim C7 witness: in `41 E2 28 A1 00` the walk reaches position 1, whose
3-unit sequence has the bad continuation byte 0x28, and the validator
returns 4. -/
theorem C7_error_taxonomy_witness :
    Utf8Reaches [0x41, 0xE2, 0x28, 0xA1, 0] 1 ∧
    [0x41, 0xE2, 0x28, 0xA1, 0].getD 1 0 ≠ 0 ∧
    utf8_trailing_bad [0x41, 0xE2, 0x28, 0xA1, 0] 1
      (UTF8_TRAILING_COUNT ([0x41, 0xE2, 0x28, 0xA1, 0].getD 1 0) + 1) = true ∧
    utf8_validate [0x41, 0xE2, 0x28, 0xA1, 0] false = 4 := by
  have h0 : Utf8Reaches [0x41, 0xE2, 0x28, 0xA1, 0] 1 :=
    @Utf8Reaches.step [0x41, 0xE2, 0x28, 0xA1, 0] 0
      Utf8Reaches.zero (by decide) (by decide)
  refine ⟨h0, by decide, by decide, ?_⟩
  exact (C7_error_taxonomy [0x41, 0xE2, 0x28, 0xA1, 0] false 1 h0 (by decide)).2.1
    (by decide) (by decide)

/-- Claim C7 counterexample: `F0 8D A0 80` is a 4-unit sequence with good
continuation units that decodes to the surrogate 0xD800, whose minimal
length is 3 — an overlong encoding, the first violation in the string — yet
`utf8_validate` returns 2, not the claimed 6. -/
theorem C7_surrogate_overlong_returns_2 :
    utf8_trailing_bad [0xF0, 0x8D, 0xA0, 0x80, 0] 0 4 = false ∧
    __utf8_decode [0xF0, 0x8D, 0xA0, 0x80, 0] 0 4 = 0xD800 ∧
    __utf8_chars_for_codepoint 0xD800 = 3 ∧
    utf8_validate [0xF0, 0x8D, 0xA0, 0x80, 0] false = 2 := by decide

/-- Claim C8 (confirmed): the overlong 2-byte encoding of NUL yields
`utf8_validate = 6`; the buffer `2F C0 AE 2E 2F 00` also yields 6 while
`strlen_utf8` still reports 5 units. -/
theorem C8_overlong_rejection :
    utf8_validate [0xC0, 0x80, 0] false = 6 ∧
    utf8_validate [0x2F, 0xC0, 0xAE, 0x2E, 0x2F, 0] false = 6 ∧
    strlen_utf8 [0x2F, 0xC0, 0xAE, 0x2E, 0x2F, 0] = 5 := by decide

/-- Claim C9 (amended): the three validators, the three strlen functions and
the two UTF-32-source length estimators are prefix determined — any two
buffers that agree up to and including their first zero unit produce
identical results.  (The UTF-8/UTF-16-source estimators are not: they can
skip over an in-sequence zero unit — see the counterexample.) -/
theorem C9_prefix_determinism (A B : List Nat) (h : AgreeThruZero A B)
    (swap : Bool) :
    utf8_validate A swap = utf8_validate B swap ∧
    utf16_validate A swap = utf16_validate B swap ∧
    utf32_validate A swap = utf32_validate B swap ∧
    strlen_utf8 A = strlen_utf8 B ∧
    strlen_utf16 A = strlen_utf16 B ∧
    strlen_utf32 A = strlen_utf32 B ∧
    utf32_in_utf8_len A swap = utf32_in_utf8_len B swap ∧
    utf32_in_utf16_len A swap = utf32_in_utf16_len B swap := by
  obtain ⟨z, hzA, hzB, hz, hnz, hag⟩ := agreeThruZero_elim A B h
  have hc0 : A.getD 0 0 = B.getD 0 0 := hag 0 (by omega)
  have hzB0 : B.getD z 0 = 0 := (hag z (le_refl z)).symm.trans hz
  have hnzB : ∀ i, i < z → B.getD i 0 ≠ 0 := fun i hi => by
    rw [← hag i (by omega)]
    exact hnz i hi
  refine ⟨?_, ?_, ?_, ?_, ?_, ?_, ?_, ?_⟩
  · exact utf8_validate_loop_agree A B z hz hnz hag (A.length + 2) (B.length + 2) 0
      (by omega) (by omega) (by omega)
  · show utf16_validate_loop A swap _ (A.getD 0 0) 0 = utf16_validate_loop B swap _ (B.getD 0 0) 0
    rw [← hc0]
    exact utf16_validate_loop_agree A B swap z hz hag (A.length + 2) (B.length + 2)
      (A.getD 0 0) 0 (by omega) (by omega) (fun _ => Nat.zero_le z) (by omega)
  · show utf32_validate_loop A swap _ (A.getD 0 0) 0 = utf32_validate_loop B swap _ (B.getD 0 0) 0
    rw [← hc0]
    exact utf32_validate_loop_agree A B swap z hz hag (A.length + 2) (B.length + 2)
      (A.getD 0 0) 0 (by omega) (by omega) (fun _ => Nat.zero_le z) (by omega)
  · show strlen_loop A _ 0 = strlen_loop B _ 0
    rw [strlen_loop_eq A z hz hnz (A.length + 2) 0 (by omega) (by omega),
      strlen_loop_eq B z hzB0 hnzB (B.length + 2) 0 (by omega) (by omega)]
  · show strlen_loop A _ 0 = strlen_loop B _ 0
    rw [strlen_loop_eq A z hz hnz (A.length + 2) 0 (by omega) (by omega),
      strlen_loop_eq B z hzB0 hnzB (B.length + 2) 0 (by omega) (by omega)]
  · show strlen_loop A _ 0 = strlen_loop B _ 0
    rw [strlen_loop_eq A z hz hnz (A.length + 2) 0 (by omega) (by omega),
      strlen_loop_eq B z hzB0 hnzB (B.length + 2) 0 (by omega) (by omega)]
  · show utf32_in_utf8_len_loop A swap _ (A.getD 0 0) 0 =
      utf32_in_utf8_len_loop B swap _ (B.getD 0 0) 0
    rw [← hc0]
    exact utf32_in_utf8_len_loop_agree A B swap z hz hag (A.length + 2) (B.length + 2)
      (A.getD 0 0) 0 (by omega) (by omega) (fun _ => Nat.zero_le z) (by omega)
  · show utf32_in_utf16_len_loop A swap _ (A.getD 0 0) 0 =
      utf32_in_utf16_len_loop B swap _ (B.getD 0 0) 0
    rw [← hc0]
    exact utf32_in_utf16_len_loop_agree A B swap z hz hag (A.length + 2) (B.length + 2)
      (A.getD 0 0) 0 (by omega) (by omega) (fun _ => Nat.zero_le z) (by omega)

/-- Claim C9 witness: two buffers sharing the prefix `41 00` but different
afterwards give the same validator and strlen results. -/
theorem C9_prefix_determinism_witness :
    AgreeThruZero [0x41, 0] [0x41, 0, 7] ∧
    utf8_validate [0x41, 0] false = utf8_validate [0x41, 0, 7] false ∧
    strlen_utf8 [0x41, 0] = strlen_utf8 [0x41, 0, 7] := by
  have h : AgreeThruZero [0x41, 0] [0x41, 0, 7] :=
    ⟨1, by decide, fun i hi => by interval_cases i; decide,
      fun i hi => by interval_cases i <;> decide⟩
  exact ⟨h, (C9_prefix_determinism [0x41, 0] [0x41, 0, 7] h false).1,
    (C9_prefix_determinism [0x41, 0] [0x41, 0, 7] h false).2.2.2.1⟩

/-- Claim C9 counterexample: the buffers `F0 00 41 41 00` and `F0 00 00 00 00`
agree up to and including their first zero unit (index 1), yet
`utf8_in_utf16_len` returns 3 on the first and 2 on the second: the
estimator skips over the in-sequence zero and reads past the terminator. -/
theorem C9_estimator_reads_past_zero :
    AgreeThruZero [0xF0, 0, 0x41, 0x41, 0] [0xF0, 0, 0, 0, 0] ∧
    utf8_in_utf16_len [0xF0, 0, 0x41, 0x41, 0] false = 3 ∧
    utf8_in_utf16_len [0xF0, 0, 0, 0, 0] false = 2 := by
  refine ⟨⟨1, by decide, fun i hi => by interval_cases i; decide,
    fun i hi => by interval_cases i <;> decide⟩, by decide, by decide⟩

/-- Claim C10 (code bug): the transcoder output `D800 DC01` for the UTF-32
source U+10001 is a well-formed surrogate pair, yet appending a zero
terminator and running `utf16_validate` yields 1, not the claimed 0: the
validator mishandles a surrogate pair at the start of the buffer (it
re-reads the leading unit as the pair's second unit). -/
theorem C10_wellformed_output_rejected :
    (enc_utf32_to_utf16 mem0 2 [0x10001] 1 false).produced = 2 ∧
    memOut (enc_utf32_to_utf16 mem0 2 [0x10001] 1 false).buf 2 = [0xD800, 0xDC01] ∧
    utf16_validate [0xD800, 0xDC01, 0] false = 1 := by decide
